import Mathlib

set_option autoImplicit false

/-!
Shallow embedding of the go-user-api repository's core: the generic
transaction manager, the per-repository transactional write paths of the
relational (PostgreSQL) and document-store (MongoDB) backends, the cache-aside
Redis client, and the entity repositories' read/write operations, together with
theorems checking the natural-language specification against the code.

Errors are modelled as `Option String` / `Except String` values carrying the
messages built by the Go code's `fmt.Errorf` calls.  I/O outcomes (whether a
given backend call fails, and with what message) are supplied as explicit
behaviour records, so every code path of the source functions is reachable in
the model.
-/

namespace GoUserApi

/-- Observable events of one `ExecuteTx`-style call, listed in program order:
invocation of the callback, of the executor handle's `Commit` / `Rollback`
(for MongoDB: `CommitTransaction` / `AbortTransaction`), and of the
repository's cache-invalidation helper. -/
inductive Ev where
  | callback   : Ev
  | commit     : Ev
  | rollback   : Ev
  | invalidate : Ev
deriving DecidableEq, Repr

/-- Backend behaviour for one run of a relational `ExecuteTx`: whether
`beginTx` / the callback `fn` / `Rollback` / `Commit` fail, and with which
message (`none` means the call succeeds). -/
structure TxOutcome where
  beginErr    : Option String
  fnErr       : Option String
  rollbackErr : Option String
  commitErr   : Option String
deriving DecidableEq, Repr

namespace GenericManager

/-- `GenericManager.ExecuteTx` from
`internal/repositories/transaction/manager.go` lines 38-61.  Returns the Go
function's error result paired with the ordered event trace.  On a `beginTx`
failure the wrapped error is returned with no further calls; on a callback
error `Rollback` runs, and a rollback failure yields the combined
`tx failed: ..., unable to rollback: ...` message while a successful rollback
returns the callback error unchanged; otherwise `Commit` runs. -/
def executeTx (b : TxOutcome) : Option String × List Ev :=
  match b.beginErr with
  | some e => (some ("failed to begin transaction: " ++ e), [])
  | none =>
    match b.fnErr with
    | some err =>
      match b.rollbackErr with
      | some rbErr =>
          (some ("tx failed: " ++ err ++ ", unable to rollback: " ++ rbErr),
           [Ev.callback, Ev.rollback])
      | none => (some err, [Ev.callback, Ev.rollback])
    | none =>
      match b.commitErr with
      | some cErr =>
          (some ("failed to commit transaction: " ++ cErr),
           [Ev.callback, Ev.commit])
      | none => (none, [Ev.callback, Ev.commit])

end GenericManager

namespace PgRepo

/-- The per-repository `ExecuteTx` of the relational backend
(`PermissionRepository.ExecuteTx` in repo_factory.go lines 393-416 and
`RoleRepository.ExecuteTx` in role_repository.go lines 348-371, which are
textually identical up to the repository type): the same begin / callback /
rollback / commit structure as the generic manager, followed by a cache
invalidation that runs only after a successful commit. -/
def executeTx (b : TxOutcome) : Option String × List Ev :=
  match b.beginErr with
  | some e => (some ("failed to begin transaction: " ++ e), [])
  | none =>
    match b.fnErr with
    | some err =>
      match b.rollbackErr with
      | some rbErr =>
          (some ("tx failed: " ++ err ++ ", unable to rollback: " ++ rbErr),
           [Ev.callback, Ev.rollback])
      | none => (some err, [Ev.callback, Ev.rollback])
    | none =>
      match b.commitErr with
      | some cErr =>
          (some ("failed to commit transaction: " ++ cErr),
           [Ev.callback, Ev.commit])
      | none => (none, [Ev.callback, Ev.commit, Ev.invalidate])

end PgRepo

/-- Backend behaviour for one run of a MongoDB per-repository `ExecuteTx`:
session start, transaction start, the callback, `AbortTransaction` (consulted
only when the callback fails) and `CommitTransaction`. -/
structure MongoTxOutcome where
  startSessionErr : Option String
  startTxErr      : Option String
  fnErr           : Option String
  abortErr        : Option String
  commitErr       : Option String
deriving DecidableEq, Repr

namespace MongoRepo

/-- The per-repository `ExecuteTx` of the document-store backend
(`MongoRoleRepository.ExecuteTx` and `MongoPermissionRepository.ExecuteTx`,
textually identical): start session, start transaction, run the callback; on a
callback error `AbortTransaction` runs but its failure is only logged
(`log.Error().Err(abortErr)`) and the callback error is returned unchanged;
on success `CommitTransaction` runs and the cache is invalidated only after a
successful commit.  Note the result never mentions `abortErr`. -/
def executeTx (b : MongoTxOutcome) : Option String × List Ev :=
  match b.startSessionErr with
  | some e => (some ("failed to start MongoDB session: " ++ e), [])
  | none =>
    match b.startTxErr with
    | some e => (some ("failed to start transaction: " ++ e), [])
    | none =>
      match b.fnErr with
      | some err => (some err, [Ev.callback, Ev.rollback])
      | none =>
        match b.commitErr with
        | some cErr =>
            (some ("failed to commit transaction: " ++ cErr),
             [Ev.callback, Ev.commit])
        | none => (none, [Ev.callback, Ev.commit, Ev.invalidate])

end MongoRepo

/-- C1: in every `GenericManager.ExecuteTx` run whose `beginTx` succeeds, the
callback runs exactly once and is the first event; when the callback fails,
`Rollback` runs exactly once and `Commit` never; when the callback succeeds,
`Commit` runs exactly once and `Rollback` never.  In particular exactly one of
commit / rollback is invoked, and only after the callback. -/
theorem genericManager_commit_rollback_exclusive (b : TxOutcome)
    (h : b.beginErr = none) :
    (GenericManager.executeTx b).2.count Ev.callback = 1 ∧
    (GenericManager.executeTx b).2.head? = some Ev.callback ∧
    (b.fnErr ≠ none →
      (GenericManager.executeTx b).2.count Ev.rollback = 1 ∧
      (GenericManager.executeTx b).2.count Ev.commit = 0) ∧
    (b.fnErr = none →
      (GenericManager.executeTx b).2.count Ev.commit = 1 ∧
      (GenericManager.executeTx b).2.count Ev.rollback = 0) := by
  obtain ⟨bb, f, r, c⟩ := b
  cases h
  cases f <;> cases r <;> cases c <;>
    simp [GenericManager.executeTx, List.count_cons]

/-- Witness for C1: a concrete run with a failing callback and a succeeding
rollback satisfies the exclusivity property. -/
theorem genericManager_commit_rollback_exclusive_witness :
    (GenericManager.executeTx ⟨none, some "boom", none, none⟩).2.count
      Ev.rollback = 1 := by
  exact (genericManager_commit_rollback_exclusive
    ⟨none, some "boom", none, none⟩ rfl).2.2.1 (by simp) |>.1

/-- C2 counterexample: the document-store per-repository `ExecuteTx`
(`MongoRoleRepository.ExecuteTx`, `MongoPermissionRepository.ExecuteTx`), run
with callback error "E" while `AbortTransaction` fails with "R", returns
exactly `some "E"`: the abort failure "R" is only logged, not combined into
the returned error, contradicting the claim that every implementation of the
`ExecuteTx` contract returns a combined error naming both. -/
theorem mongoRepo_executeTx_drops_abort_error :
    (MongoRepo.executeTx ⟨none, none, some "E", some "R", none⟩).1
      = some "E" := rfl

/-- C2 amended: when the callback fails with E and rollback succeeds, the
generic manager and the relational per-repository `ExecuteTx` return E
unchanged, and when rollback fails with R they return the combined
`tx failed: E, unable to rollback: R` error naming both; the document-store
per-repository `ExecuteTx` returns E unchanged in every case, its abort
failure being only logged. -/
theorem executeTx_callback_error_propagation (b : TxOutcome)
    (m : MongoTxOutcome) (E R : String)
    (hb : b.beginErr = none) (hf : b.fnErr = some E)
    (hm1 : m.startSessionErr = none) (hm2 : m.startTxErr = none)
    (hm3 : m.fnErr = some E) :
    (b.rollbackErr = none →
      (GenericManager.executeTx b).1 = some E ∧
      (PgRepo.executeTx b).1 = some E) ∧
    (b.rollbackErr = some R →
      (GenericManager.executeTx b).1
        = some ("tx failed: " ++ E ++ ", unable to rollback: " ++ R) ∧
      (PgRepo.executeTx b).1
        = some ("tx failed: " ++ E ++ ", unable to rollback: " ++ R)) ∧
    (MongoRepo.executeTx m).1 = some E := by
  obtain ⟨bb, f, r, c⟩ := b
  obtain ⟨m1, m2, m3, m4, m5⟩ := m
  cases hb; cases hf; cases hm1; cases hm2; cases hm3
  refine ⟨fun hr => ?_, fun hr => ?_, ?_⟩
  · cases hr; exact ⟨rfl, rfl⟩
  · cases hr; exact ⟨rfl, rfl⟩
  · rfl

/-- Witness for C2 (amended): concrete runs through both the
rollback-succeeds and rollback-fails paths. -/
theorem executeTx_callback_error_propagation_witness :
    (GenericManager.executeTx ⟨none, some "E", some "R", none⟩).1
      = some ("tx failed: " ++ "E" ++ ", unable to rollback: " ++ "R") := by
  exact (executeTx_callback_error_propagation
    ⟨none, some "E", some "R", none⟩ ⟨none, none, some "E", none, none⟩
    "E" "R" rfl rfl rfl rfl rfl).2.1 rfl |>.1

/-- C5: in every per-repository `ExecuteTx` run on either backend, the cache
invalidation event occurs exactly when the call returns success, and then
strictly after the commit event; when begin (session / transaction start), the
callback, or commit fails, no invalidation is performed at all. -/
theorem repoExecuteTx_invalidate_only_after_commit (b : TxOutcome)
    (m : MongoTxOutcome) :
    ((PgRepo.executeTx b).1 = none →
      (PgRepo.executeTx b).2 = [Ev.callback, Ev.commit, Ev.invalidate]) ∧
    ((PgRepo.executeTx b).1 ≠ none →
      Ev.invalidate ∉ (PgRepo.executeTx b).2) ∧
    ((MongoRepo.executeTx m).1 = none →
      (MongoRepo.executeTx m).2 = [Ev.callback, Ev.commit, Ev.invalidate]) ∧
    ((MongoRepo.executeTx m).1 ≠ none →
      Ev.invalidate ∉ (MongoRepo.executeTx m).2) := by
  obtain ⟨bb, f, r, c⟩ := b
  obtain ⟨m1, m2, m3, m4, m5⟩ := m
  cases bb <;> cases f <;> cases r <;> cases c <;>
    cases m1 <;> cases m2 <;> cases m3 <;> cases m5 <;>
      simp [PgRepo.executeTx, MongoRepo.executeTx]

/-- Witness for C5: a fully successful relational run invalidates, and only
after the commit event. -/
theorem repoExecuteTx_invalidate_only_after_commit_witness :
    (PgRepo.executeTx ⟨none, none, none, none⟩).2
      = [Ev.callback, Ev.commit, Ev.invalidate] := by
  exact (repoExecuteTx_invalidate_only_after_commit
    ⟨none, none, none, none⟩ ⟨none, none, none, none, none⟩).1 rfl

/-!
## Store model

The durable state: users, roles, permissions and the two association tables
(`user_roles`, `role_permissions`), with UUIDs modelled as `Nat` and
timestamps as `Nat` (a `now` argument replaces `time.Now()`).  A `UserDoc`
carries exactly the columns written by the update statements (the password
column and creation timestamp, untouched by them, are omitted). -/

structure UserDoc where
  id        : Nat
  username  : String
  email     : String
  firstName : String
  lastName  : String
  isActive  : Bool
  updatedAt : Nat
deriving DecidableEq, Repr

structure RoleDoc where
  id          : Nat
  name        : String
  description : String
deriving DecidableEq, Repr

structure PermDoc where
  id          : Nat
  name        : String
  resource    : String
  action      : String
  description : String
deriving DecidableEq, Repr

/-- The backend store: entity collections plus the two association
collections, each association as a (parent id, child id) pair. -/
structure Store where
  users           : List UserDoc
  roles           : List RoleDoc
  permissions     : List PermDoc
  userRoles       : List (Nat × Nat)
  rolePermissions : List (Nat × Nat)
deriving DecidableEq, Repr

/-- Replace the first element satisfying `p` (MongoDB `UpdateOne`
semantics: at most one document is modified). -/
def updateFirst {α : Type} (p : α → Bool) (f : α → α) : List α → List α
  | [] => []
  | x :: xs => if p x then f x :: xs else x :: updateFirst p f xs

/-- A conditional replacement maps to the identity when no element satisfies
the predicate. -/
theorem map_noop_of_pred_false {α : Type} (q : α → Bool) (w : α) (l : List α)
    (h : ∀ v ∈ l, q v = false) :
    (l.map fun v => if q v then w else v) = l := by
  induction l with
  | nil => rfl
  | cons x xs ih =>
    simp only [List.map_cons, h x (List.mem_cons_self x xs),
      Bool.false_eq_true, if_false, List.cons.injEq, true_and]
    exact ih fun v hv => h v (List.mem_cons_of_mem x hv)

/-- `List.any` is false when the predicate is false on every element. -/
theorem any_eq_false_of_pred_false {α : Type} (q : α → Bool) (l : List α)
    (h : ∀ v ∈ l, q v = false) : l.any q = false := by
  induction l with
  | nil => rfl
  | cons x xs ih =>
    simp only [List.any_cons, h x (List.mem_cons_self x xs), Bool.false_or]
    exact ih fun v hv => h v (List.mem_cons_of_mem x hv)

namespace PostgresqlTxRepository

/-- `PostgresqlTxRepository.UpdateUser` (postgres_tx_repository.go lines
49-73): `UPDATE users SET ... WHERE id = $7` through the transaction handle.
The `sql.Result` rows-affected count is discarded (`_, err := ...`), so the
call succeeds even when no row matched. -/
def updateUser (st : Store) (u : UserDoc) : Except String Store :=
  Except.ok { st with
    users := st.users.map fun v => if v.id == u.id then u else v }

/-- `PostgresqlTxRepository.AssignRolesToUser` (postgres_tx_repository.go
lines 92-113): `DELETE FROM user_roles WHERE user_id = $1`, then one
`INSERT INTO user_roles (user_id, role_id)` per id, in order, all on the
transaction handle. -/
def assignRolesToUser (st : Store) (uid : Nat) (rids : List Nat) : Store :=
  { st with userRoles :=
      st.userRoles.filter (fun p => !(p.1 == uid))
        ++ rids.map fun r => (uid, r) }

end PostgresqlTxRepository

namespace UserRepository

/-- `UserRepository.Update` (postgres_user_repo.go lines 225-254): sets
`UpdatedAt` to now and runs the same UPDATE as the transactional variant, on
the pool; rows-affected is again not inspected. -/
def update (st : Store) (u : UserDoc) (now : Nat) : Except String Store :=
  let w := { u with updatedAt := now }
  Except.ok { st with
    users := st.users.map fun v => if v.id == w.id then w else v }

end UserRepository

namespace MongoTxRepository

/-- `TxRepository.UpdateUser` of the MongoDB scoped write repository
(the mongodb package's TxRepository, lines 568-593 of the file that also
holds the postgres user repository): sets `UpdatedAt`, runs `UpdateOne` on
the `_id` filter and turns `MatchedCount == 0` into the not-found error. -/
def updateUser (st : Store) (u : UserDoc) (now : Nat) : Except String Store :=
  let w := { u with updatedAt := now }
  if st.users.any (fun v => v.id == w.id) then
    Except.ok { st with
      users := updateFirst (fun v => v.id == w.id) (fun _ => w) st.users }
  else
    Except.error "user not found"

/-- `TxRepository.AssignRolesToUser` (same file, lines 618-643):
`DeleteMany` on `user_id`, then — only when the id list is non-empty —
`InsertMany` of one document per id. -/
def assignRolesToUser (st : Store) (uid : Nat) (rids : List Nat) : Store :=
  let remaining := st.userRoles.filter (fun p => !(p.1 == uid))
  if rids.isEmpty then { st with userRoles := remaining }
  else { st with userRoles := remaining ++ rids.map fun r => (uid, r) }

end MongoTxRepository

namespace MongoUserRepository

/-- `MongoUserRepository.Update` (mongo_user_repo.go lines 247-276): sets
`UpdatedAt`, runs `UpdateOne` and turns `MatchedCount == 0` into the
not-found error. -/
def update (st : Store) (u : UserDoc) (now : Nat) : Except String Store :=
  let w := { u with updatedAt := now }
  if st.users.any (fun v => v.id == w.id) then
    Except.ok { st with
      users := updateFirst (fun v => v.id == w.id) (fun _ => w) st.users }
  else
    Except.error "user not found"

end MongoUserRepository

/-- Concrete user for counterexamples. -/
def cexUser : UserDoc :=
  { id := 1, username := "alice", email := "alice@example.com",
    firstName := "A", lastName := "L", isActive := true, updatedAt := 0 }

/-- The empty store. -/
def emptyStore : Store :=
  { users := [], roles := [], permissions := [],
    userRoles := [], rolePermissions := [] }

/-- C3 counterexample: an update against an id absent from the store returns
success on the relational backend (both the transactional and the direct
update never inspect rows-affected), while the document-store backend returns
the not-found error — so the two backends do not return the same not-found
kind, and the relational backend reports success for an update that matched
zero rows. -/
theorem update_notfound_divergence :
    PostgresqlTxRepository.updateUser emptyStore cexUser
      = Except.ok emptyStore ∧
    UserRepository.update emptyStore cexUser 7 = Except.ok emptyStore ∧
    MongoTxRepository.updateUser emptyStore cexUser 7
      = Except.error "user not found" ∧
    MongoUserRepository.update emptyStore cexUser 7
      = Except.error "user not found" := by
  refine ⟨rfl, rfl, rfl, rfl⟩

/-- C3 amended: for an id that does not exist in the store, the
document-store backend's updates (transactional and direct) return the
not-found error, while the relational backend's updates perform no
rows-affected check and return success, leaving the store unchanged. -/
theorem update_nonexistent_user (st : Store) (u : UserDoc) (now : Nat)
    (h : ∀ v ∈ st.users, v.id ≠ u.id) :
    PostgresqlTxRepository.updateUser st u = Except.ok st ∧
    UserRepository.update st u now = Except.ok st ∧
    MongoTxRepository.updateUser st u now
      = Except.error "user not found" ∧
    MongoUserRepository.update st u now
      = Except.error "user not found" := by
  have hpred : ∀ v ∈ st.users, (v.id == u.id) = false := fun v hv =>
    beq_eq_false_iff_ne.mpr (h v hv)
  have hmap : ∀ w : UserDoc,
      (st.users.map fun v => if v.id == u.id then w else v) = st.users :=
    fun w => map_noop_of_pred_false _ w _ hpred
  have hany : st.users.any (fun v => v.id == u.id) = false :=
    any_eq_false_of_pred_false _ _ hpred
  refine ⟨?_, ?_, ?_, ?_⟩
  · simp only [PostgresqlTxRepository.updateUser, hmap u]
  · simp only [UserRepository.update, hmap]
  · simp only [MongoTxRepository.updateUser, hany]
    simp
  · simp only [MongoUserRepository.update, hany]
    simp

/-- Witness for C3 (amended): a store holding only a user with id 2, updated
at id 1. -/
theorem update_nonexistent_user_witness :
    MongoUserRepository.update
        { emptyStore with users := [{ cexUser with id := 2 }] } cexUser 7
      = Except.error "user not found" := by
  exact (update_nonexistent_user
    { emptyStore with users := [{ cexUser with id := 2 }] } cexUser 7
    (by decide)).2.2.2

/-- `List.filter` gives the empty list when the predicate fails everywhere. -/
theorem filter_eq_nil_of_pred_false {α : Type} (q : α → Bool) (l : List α)
    (h : ∀ v ∈ l, q v = false) : l.filter q = [] := by
  induction l with
  | nil => rfl
  | cons x xs ih =>
    simp only [List.filter_cons, h x (List.mem_cons_self x xs),
      Bool.false_eq_true, if_false]
    exact ih fun v hv => h v (List.mem_cons_of_mem x hv)

/-- Filtering twice with the same predicate filters once. -/
theorem filter_self_idem {α : Type} (q : α → Bool) (l : List α) :
    (l.filter q).filter q = l.filter q := by
  induction l with
  | nil => rfl
  | cons x xs ih =>
    by_cases hx : q x = true <;> simp [List.filter_cons, hx, ih]

/-- The two backends' replace-associations produce identical stores. -/
theorem mongo_assign_eq_pg (st : Store) (uid : Nat) (rids : List Nat) :
    MongoTxRepository.assignRolesToUser st uid rids
      = PostgresqlTxRepository.assignRolesToUser st uid rids := by
  cases rids <;>
    simp [MongoTxRepository.assignRolesToUser,
      PostgresqlTxRepository.assignRolesToUser]

/-- The rows inserted for a parent are all removed by the parent filter. -/
theorem filter_ne_map_self (uid : Nat) (rids : List Nat) :
    (rids.map fun r => (uid, r)).filter (fun p => !(p.1 == uid)) = [] := by
  refine filter_eq_nil_of_pred_false _ _ ?_
  intro v hv
  obtain ⟨r, _, rfl⟩ := List.mem_map.mp hv
  simp

/-- C4: on both backends, replace-associations leaves the parent's
association set exactly the set of ids in the new list, independent of the
prior set; the two backends produce the same store; an empty list leaves zero
associations for the parent; and the operation is idempotent. -/
theorem assignRolesToUser_replaces (st : Store) (uid : Nat)
    (rids : List Nat) :
    (∀ r : Nat,
      (uid, r) ∈
          (PostgresqlTxRepository.assignRolesToUser st uid rids).userRoles
        ↔ r ∈ rids) ∧
    (∀ r : Nat,
      (uid, r) ∈
          (MongoTxRepository.assignRolesToUser st uid rids).userRoles
        ↔ r ∈ rids) ∧
    (PostgresqlTxRepository.assignRolesToUser st uid []).userRoles.filter
        (fun p => p.1 == uid) = [] ∧
    (MongoTxRepository.assignRolesToUser st uid []).userRoles.filter
        (fun p => p.1 == uid) = [] ∧
    PostgresqlTxRepository.assignRolesToUser
        (PostgresqlTxRepository.assignRolesToUser st uid rids) uid rids
      = PostgresqlTxRepository.assignRolesToUser st uid rids ∧
    MongoTxRepository.assignRolesToUser
        (MongoTxRepository.assignRolesToUser st uid rids) uid rids
      = MongoTxRepository.assignRolesToUser st uid rids := by
  have hpgmem : ∀ r : Nat,
      (uid, r) ∈
          (PostgresqlTxRepository.assignRolesToUser st uid rids).userRoles
        ↔ r ∈ rids := by
    intro r
    simp [PostgresqlTxRepository.assignRolesToUser, List.mem_filter]
  have hempty : (PostgresqlTxRepository.assignRolesToUser st uid
      []).userRoles.filter (fun p => p.1 == uid) = [] := by
    simp only [PostgresqlTxRepository.assignRolesToUser, List.map_nil,
      List.append_nil]
    refine filter_eq_nil_of_pred_false _ _ ?_
    intro v hv
    have := (List.mem_filter.mp hv).2
    simpa using this
  have hidem : PostgresqlTxRepository.assignRolesToUser
      (PostgresqlTxRepository.assignRolesToUser st uid rids) uid rids
      = PostgresqlTxRepository.assignRolesToUser st uid rids := by
    simp only [PostgresqlTxRepository.assignRolesToUser, List.filter_append,
      filter_self_idem, filter_ne_map_self, List.append_nil]
  refine ⟨hpgmem, ?_, hempty, ?_, hidem, ?_⟩
  · intro r
    rw [mongo_assign_eq_pg]
    exact hpgmem r
  · rw [mongo_assign_eq_pg]
    exact hempty
  · rw [mongo_assign_eq_pg, mongo_assign_eq_pg]
    exact hidem

/-!
## Cache-aside Redis client

From the cache package's `RedisClient`.  The key/value store models a healthy
reachable backend; backend calls are reported as events so that "no contact
with the backend" is observable.  Values are kept as their serialized strings
(the client marshals to JSON before storing). -/

inductive RedisOp where
  | getOp  : RedisOp
  | setOp  : RedisOp
  | delOp  : RedisOp
  | keysOp : RedisOp
deriving DecidableEq, Repr

structure RedisClient where
  enabled : Bool
  store   : List (String × String)
deriving DecidableEq, Repr

namespace RedisClient

/-- `NewRedisClient`: the constructor pings the backend; a ping failure is
only logged ("continuing without caching") and a client with
`enabled := false` is returned — the constructor never returns an error. -/
def new (pingErr : Option String) : Except String RedisClient :=
  match pingErr with
  | some _ => Except.ok { enabled := false, store := [] }
  | none   => Except.ok { enabled := true, store := [] }

/-- `Get`: a disabled client reports (found := false, no error) without
touching the backend; otherwise the key is looked up (redis.Nil becomes
found := false with no error). -/
def get (c : RedisClient) (key : String) :
    (Bool × Option String) × List RedisOp :=
  if !c.enabled then ((false, none), [])
  else
    match c.store.lookup key with
    | none   => ((false, none), [RedisOp.getOp])
    | some _ => ((true, none), [RedisOp.getOp])

/-- `SetWithTTL`: a disabled client returns success without touching the
backend; otherwise the serialized value is stored under the key. -/
def setWithTTL (c : RedisClient) (key val : String) (ttl : Nat) :
    (Option String × RedisClient) × List RedisOp :=
  if !c.enabled then ((none, c), [])
  else
    ((none, { c with
        store := (key, val) :: c.store.filter fun p => !(p.1 == key) }),
     [RedisOp.setOp])

/-- `Set` delegates to `SetWithTTL` with the client's default TTL
(the TTL value does not affect the modelled state; 0 stands for it). -/
def set (c : RedisClient) (key val : String) :
    (Option String × RedisClient) × List RedisOp :=
  c.setWithTTL key val 0

/-- `Delete`: a disabled client returns success without touching
the backend. -/
def delete (c : RedisClient) (key : String) :
    (Option String × RedisClient) × List RedisOp :=
  if !c.enabled then ((none, c), [])
  else
    ((none, { c with store := c.store.filter fun p => !(p.1 == key) }),
     [RedisOp.delOp])

/-- Glob matching as used by the repository's invalidation patterns
("user:*", "roles:*", ...): a trailing `*` matches any suffix. -/
def globMatch (pat s : String) : Bool :=
  if pat.endsWith "*" then (pat.dropRight 1).isPrefixOf s else pat == s

/-- `DeleteByPattern`: a disabled client returns success without touching the
backend; otherwise KEYS enumerates the matching keys and, when any exist,
one DEL batch removes them. -/
def deleteByPattern (c : RedisClient) (pat : String) :
    (Option String × RedisClient) × List RedisOp :=
  if !c.enabled then ((none, c), [])
  else
    let ks := (c.store.map Prod.fst).filter fun k => globMatch pat k
    if ks.isEmpty then ((none, c), [RedisOp.keysOp])
    else
      ((none, { c with store := c.store.filter fun p => !(globMatch pat p.1) }),
       [RedisOp.keysOp, RedisOp.delOp])

end RedisClient

/-- C6: constructing the client against an unreachable backend returns a
usable client and no error, in a disabled state; and a disabled client's
`Get` reports found := false with no error, while `Set` / `SetWithTTL` /
`Delete` / `DeleteByPattern` return success and leave the client unchanged —
all without a single backend call. -/
theorem redisClient_disabled_degrade (e key val pat : String) (ttl : Nat) :
    ∃ c : RedisClient,
      RedisClient.new (some e) = Except.ok c ∧
      c.enabled = false ∧
      c.get key = ((false, none), []) ∧
      c.set key val = ((none, c), []) ∧
      c.setWithTTL key val ttl = ((none, c), []) ∧
      c.delete key = ((none, c), []) ∧
      c.deleteByPattern pat = ((none, c), []) := by
  refine ⟨{ enabled := false, store := [] }, rfl, rfl, ?_, ?_, ?_, ?_, ?_⟩ <;>
    simp [RedisClient.get, RedisClient.set, RedisClient.setWithTTL,
      RedisClient.delete, RedisClient.deleteByPattern]

/-!
## Direct (non-`ExecuteTx`) association replacement, with failure injection

`UserRepository.AssignRolesToUser` (relational) wraps the delete-then-insert
sequence in its own `BeginTxx` transaction with explicit rollback on every
statement failure.  `MongoUserRepository.AssignRolesToUser` starts a session
and runs the sequence under `mongo.WithSession`, but never calls
`StartTransaction` / `CommitTransaction` / `AbortTransaction`;
`mongo.WithSession` only binds the session to the context, so every operation
applies individually and nothing is rolled back on failure. -/

/-- Which backend calls of the relational direct assign fail. -/
structure PgAssignBehavior where
  beginErr  : Option String
  deleteErr : Option String
  insertErr : Option String
  commitErr : Option String
deriving DecidableEq, Repr

namespace UserRepository

/-- `UserRepository.AssignRolesToUser` (postgres_user_repo.go lines 307-344):
begin a transaction; DELETE the user's rows; INSERT one row per id; commit.
Any statement failure rolls the transaction back, so the store changes only
when commit succeeds.  `insertErr` can only fire when there is an insert to
run (non-empty id list). -/
def assignRolesToUser (b : PgAssignBehavior) (st : Store) (uid : Nat)
    (rids : List Nat) : Option String × Store :=
  match b.beginErr with
  | some e => (some ("failed to begin transaction: " ++ e), st)
  | none =>
    match b.deleteErr with
    | some e => (some ("failed to remove existing roles: " ++ e), st)
    | none =>
      match b.insertErr, rids.isEmpty with
      | some e, false => (some ("failed to assign role: " ++ e), st)
      | _, _ =>
        match b.commitErr with
        | some e => (some ("failed to commit transaction: " ++ e), st)
        | none =>
          let newRows := st.userRoles.filter (fun p => !(p.1 == uid))
            ++ rids.map (fun r => (uid, r))
          (none, { st with userRoles := newRows })

end UserRepository

/-- Which backend calls of the document-store direct assign fail. -/
structure MongoAssignBehavior where
  startSessionErr : Option String
  deleteErr       : Option String
  insertErr       : Option String
deriving DecidableEq, Repr

namespace MongoUserRepository

/-- `MongoUserRepository.AssignRolesToUser` (mongo_user_repo.go lines
329-373): start a session; inside `mongo.WithSession` run `DeleteMany` on the
user's association documents and, when the id list is non-empty,
`InsertMany` of the new ones.  No transaction is ever started, so when
`InsertMany` fails the earlier `DeleteMany` stays applied: the error result
is returned over a store whose prior associations are already gone. -/
def assignRolesToUser (b : MongoAssignBehavior) (st : Store) (uid : Nat)
    (rids : List Nat) : Option String × Store :=
  match b.startSessionErr with
  | some e => (some ("failed to start MongoDB session: " ++ e), st)
  | none =>
    match b.deleteErr with
    | some e =>
        (some ("failed to assign roles transaction: " ++
          ("failed to remove existing roles: " ++ e)), st)
    | none =>
      let st1 := { st with
        userRoles := st.userRoles.filter (fun p => !(p.1 == uid)) }
      if rids.isEmpty then (none, st1)
      else
        match b.insertErr with
        | some e =>
            (some ("failed to assign roles transaction: " ++
              ("failed to assign roles: " ++ e)), st1)
        | none =>
            (none, { st1 with
              userRoles := st1.userRoles ++ rids.map (fun r => (uid, r)) })

end MongoUserRepository

/-- C10: the relational direct `AssignRolesToUser` is atomic — the claim
holds there (shown by `pg_assignRoles_atomic_aux` below) — but on the
document-store backend the code runs the sequence without a transaction, and
this run exhibits the violation: starting from associations [(1, 5)], a
failing insert of [7] returns an error while the user's prior association
(1, 5) has already been deleted and nothing was inserted, so the association
set did not remain unchanged. -/
theorem mongo_assignRoles_not_atomic :
    (MongoUserRepository.assignRolesToUser ⟨none, none, some "duplicate key"⟩
        { emptyStore with userRoles := [(1, 5)] } 1 [7]).1
      = some ("failed to assign roles transaction: " ++
          ("failed to assign roles: " ++ "duplicate key")) ∧
    (MongoUserRepository.assignRolesToUser ⟨none, none, some "duplicate key"⟩
        { emptyStore with userRoles := [(1, 5)] } 1 [7]).2.userRoles
      = [] := by
  refine ⟨rfl, rfl⟩

/-- The relational half of C10: the direct assign either fails leaving the
store untouched, or succeeds with the associations fully replaced. -/
theorem pg_assignRoles_atomic_aux (b : PgAssignBehavior) (st : Store)
    (uid : Nat) (rids : List Nat) :
    ((UserRepository.assignRolesToUser b st uid rids).1 ≠ none →
      (UserRepository.assignRolesToUser b st uid rids).2 = st) ∧
    ((UserRepository.assignRolesToUser b st uid rids).1 = none →
      (UserRepository.assignRolesToUser b st uid rids).2
        = PostgresqlTxRepository.assignRolesToUser st uid rids) := by
  obtain ⟨b1, b2, b3, b4⟩ := b
  cases b1 <;> cases b2 <;> cases b3 <;> cases b4 <;>
    cases hr : rids.isEmpty <;>
      simp [UserRepository.assignRolesToUser,
        PostgresqlTxRepository.assignRolesToUser, hr]

/-!
## Entity deletion and association cleanup

The relational schema (database package bootstrap SQL) declares
`user_roles.user_id / role_id REFERENCES ... ON DELETE CASCADE` and likewise
for `role_permissions`, so a relational DELETE of a user or role removes the
referencing association rows in the same statement.  The document store has
no cascade: the repositories issue a follow-up `DeleteMany` whose failure is
only logged. -/

/-- Filtering for `q` after keeping only the elements refuting `q` gives
the empty list. -/
theorem filter_pos_after_filter_neg {α : Type} (q : α → Bool) (l : List α) :
    (l.filter fun v => !(q v)).filter q = [] := by
  refine filter_eq_nil_of_pred_false _ _ ?_
  intro v hv
  have h2 := (List.mem_filter.mp hv).2
  simpa using h2

namespace UserRepository

/-- `UserRepository.Delete` (postgres_user_repo.go lines 283-304):
`DELETE FROM users WHERE id = $1`; zero rows affected becomes the not-found
error; the schema's ON DELETE CASCADE removes the user's `user_roles` rows. -/
def deleteUser (st : Store) (uid : Nat) : Except String Store :=
  if st.users.any (fun u => u.id == uid) then
    Except.ok { st with
      users := st.users.filter (fun u => !(u.id == uid)),
      userRoles := st.userRoles.filter (fun p => !(p.1 == uid)) }
  else Except.error "user not found"

end UserRepository

namespace RoleRepository

/-- `RoleRepository.Delete` (role_repository.go lines 246-267): DELETE with
rows-affected check; ON DELETE CASCADE removes the role's `user_roles` and
`role_permissions` rows. -/
def deleteRole (st : Store) (rid : Nat) : Except String Store :=
  if st.roles.any (fun r => r.id == rid) then
    Except.ok { st with
      roles := st.roles.filter (fun r => !(r.id == rid)),
      userRoles := st.userRoles.filter (fun p => !(p.2 == rid)),
      rolePermissions := st.rolePermissions.filter (fun p => !(p.1 == rid)) }
  else Except.error "role not found"

end RoleRepository

namespace MongoUserRepository

/-- `MongoUserRepository.Delete` (mongo_user_repo.go lines 304-326):
`DeleteOne` on the user (`DeletedCount == 0` becomes not-found), then
`DeleteMany` on `user_roles`; a `DeleteMany` failure is only logged
(`log.Debug().Err(err)`) and the method still returns nil. -/
def deleteUser (cleanupErr : Option String) (st : Store) (uid : Nat) :
    Option String × Store :=
  if st.users.any (fun u => u.id == uid) then
    let st1 := { st with users := st.users.eraseP (fun u => u.id == uid) }
    match cleanupErr with
    | some _ => (none, st1)
    | none =>
        (none, { st1 with
          userRoles := st1.userRoles.filter (fun p => !(p.1 == uid)) })
  else (some "user not found", st)

end MongoUserRepository

namespace MongoRoleRepository

/-- `MongoRoleRepository.Delete` (lines 300-322 of the file holding the
MongoDB role repository): `DeleteOne` on the role, then `DeleteMany` on
`role_permissions`; a `DeleteMany` failure is only logged and the method
still returns nil. -/
def deleteRole (cleanupErr : Option String) (st : Store) (rid : Nat) :
    Option String × Store :=
  if st.roles.any (fun r => r.id == rid) then
    let st1 := { st with roles := st.roles.eraseP (fun r => r.id == rid) }
    match cleanupErr with
    | some _ => (none, st1)
    | none =>
        (none, { st1 with
          rolePermissions :=
            st1.rolePermissions.filter (fun p => !(p.1 == rid)) })
  else (some "role not found", st)

end MongoRoleRepository

/-- C9 counterexample: on the document-store backend, deleting user 1 while
the follow-up `user_roles` cleanup fails returns success (`none`) even though
the association document (1, 2) referencing the deleted user is still in the
store — so a successful Delete does not guarantee that no association
referencing the deleted id remains. -/
theorem mongo_delete_leaves_orphan_association :
    MongoUserRepository.deleteUser (some "io error")
        { emptyStore with users := [cexUser], userRoles := [(1, 2)] } 1
      = (none, { emptyStore with userRoles := [(1, 2)] }) := by
  rfl

/-- C9 amended: after a successful Delete of a user (resp. role), no
UserRole (resp. RolePermission) row referencing the deleted id remains —
on the relational backend unconditionally (schema cascade), and on the
document-store backend provided the follow-up association cleanup succeeded;
when that cleanup fails the document-store Delete still returns success with
the associations left behind. -/
theorem delete_cascades_associations (st : Store) (uid rid : Nat) :
    (∀ st', UserRepository.deleteUser st uid = Except.ok st' →
      st'.userRoles.filter (fun p => p.1 == uid) = []) ∧
    (∀ st', RoleRepository.deleteRole st rid = Except.ok st' →
      st'.rolePermissions.filter (fun p => p.1 == rid) = []) ∧
    (∀ st', MongoUserRepository.deleteUser none st uid = (none, st') →
      st'.userRoles.filter (fun p => p.1 == uid) = []) ∧
    (∀ st', MongoRoleRepository.deleteRole none st rid = (none, st') →
      st'.rolePermissions.filter (fun p => p.1 == rid) = []) := by
  refine ⟨?_, ?_, ?_, ?_⟩
  · intro st' h
    rw [UserRepository.deleteUser] at h
    split at h
    · cases h
      exact filter_pos_after_filter_neg _ _
    · cases h
  · intro st' h
    rw [RoleRepository.deleteRole] at h
    split at h
    · cases h
      exact filter_pos_after_filter_neg _ _
    · cases h
  · intro st' h
    rw [MongoUserRepository.deleteUser] at h
    split at h
    · cases h
      exact filter_pos_after_filter_neg _ _
    · simp at h
  · intro st' h
    rw [MongoRoleRepository.deleteRole] at h
    split at h
    · cases h
      exact filter_pos_after_filter_neg _ _
    · simp at h

/-- Witness for C9 (amended): deleting user 1 with a succeeding cleanup
leaves no user_roles row for id 1. -/
theorem delete_cascades_associations_witness :
    ({ emptyStore with userRoles := [(2, 9)] } : Store).userRoles.filter
        (fun p => p.1 == 1) = [] := by
  exact (delete_cascades_associations
    { emptyStore with users := [cexUser], userRoles := [(1, 2), (2, 9)] }
    1 1).2.2.1 { emptyStore with userRoles := [(2, 9)] } (by rfl)

/-!
## Cache-aside user reads

The cached payload for a user is the JSON encoding of `models.User`.  The
`Roles` field carries the tag `json:"roles,omitempty"` (only `Password`,
tagged `json:"-"`, is excluded), and both backends assign `user.Roles` before
calling `cache.Set(cacheKey, user)`, so the payload written to the cache
contains the roles fetched at caching time. -/

/-- A user value as returned by `GetByID` and as serialized into the cache:
scalar columns plus the attached roles. -/
structure CachedUser where
  scalar : UserDoc
  roles  : List RoleDoc
deriving DecidableEq, Repr

/-- The cache content relevant to user reads: serialized users by key. -/
abbrev UserCache := List (String × CachedUser)

namespace UserRepository

/-- `UserRepository.GetUserRoles` (postgres_user_repo.go lines 346-362):
`SELECT r.* FROM roles r JOIN user_roles ur ON r.id = ur.role_id WHERE
ur.user_id = $1`. -/
def getUserRoles (st : Store) (uid : Nat) : List RoleDoc :=
  st.roles.filter fun r =>
    st.userRoles.any fun ur => ur.1 == uid && ur.2 == r.id

/-- `UserRepository.GetByID` (postgres_user_repo.go lines 63-110): cache
`Get` on key "user:<id>"; on a hit, fetch the roles live and return the
cached scalars with those roles; on a miss, read the user row (no row is the
not-found error), fetch the roles, attach them, and only then `Set` the
resulting value — roles included — into the cache. -/
def getByID (st : Store) (cache : UserCache) (uid : Nat) :
    Except String (CachedUser × UserCache) :=
  match cache.lookup ("user:" ++ toString uid) with
  | some cu =>
      Except.ok ({ scalar := cu.scalar, roles := getUserRoles st uid }, cache)
  | none =>
    match st.users.find? (fun v => v.id == uid) with
    | none => Except.error "user not found"
    | some u =>
      let entry : CachedUser := { scalar := u, roles := getUserRoles st uid }
      Except.ok (entry, ("user:" ++ toString uid, entry) :: cache)

end UserRepository

namespace MongoUserRepository

/-- `MongoUserRepository.GetUserRoles` (mongo_user_repo.go lines 375-414):
collect the role ids from `user_roles`, then `FindOne` each role, silently
skipping ids whose role document no longer exists. -/
def getUserRoles (st : Store) (uid : Nat) : List RoleDoc :=
  ((st.userRoles.filter fun ur => ur.1 == uid).map Prod.snd).filterMap
    fun rid => st.roles.find? fun r => r.id == rid

/-- `MongoUserRepository.GetByID` (mongo_user_repo.go lines 86-134): same
cache-aside shape as the relational read; `FindOne` with ErrNoDocuments
becomes the not-found error; the cached payload again includes the roles. -/
def getByID (st : Store) (cache : UserCache) (uid : Nat) :
    Except String (CachedUser × UserCache) :=
  match cache.lookup ("user:" ++ toString uid) with
  | some cu =>
      Except.ok ({ scalar := cu.scalar, roles := getUserRoles st uid }, cache)
  | none =>
    match st.users.find? (fun v => v.id == uid) with
    | none => Except.error "user not found"
    | some u =>
      let entry : CachedUser := { scalar := u, roles := getUserRoles st uid }
      Except.ok (entry, ("user:" ++ toString uid, entry) :: cache)

end MongoUserRepository

/-- Role 2, used by the C7 counterexample store. -/
def cexRole : RoleDoc := { id := 2, name := "admin", description := "d" }

/-- Store with user 1 holding role 2, for the C7 counterexample. -/
def cexStoreC7 : Store :=
  { emptyStore with
    users := [cexUser], roles := [cexRole], userRoles := [(1, 2)] }

/-- C7 counterexample: a cache-miss read of user 1 (who has role 2) stores a
payload whose roles collection is `[cexRole]`, not empty — the roles are part
of the payload written to the cache on both backends, contradicting the
claim that the roles collection is not part of the cached payload.  (The
returned value and the cached value coincide because `cache.Set(cacheKey,
user)` runs after `user.Roles = roles`.) -/
theorem cached_payload_contains_roles :
    UserRepository.getByID cexStoreC7 [] 1
      = Except.ok (⟨cexUser, [cexRole]⟩, [("user:1", ⟨cexUser, [cexRole]⟩)]) ∧
    MongoUserRepository.getByID cexStoreC7 [] 1
      = Except.ok (⟨cexUser, [cexRole]⟩, [("user:1", ⟨cexUser, [cexRole]⟩)]) ∧
    ([cexRole] : List RoleDoc) ≠ [] := by
  refine ⟨by rfl, by rfl, by simp⟩

/-- C7 amended: on every `GetByID` of either backend the returned roles are
fetched live from the store — on a cache hit the cached scalar value is
returned with the cached roles ignored and the live roles attached — but the
payload stored into the cache on a miss does include the roles fetched at
that moment. -/
theorem getByID_roles_fetched_live (st : Store) (cache : UserCache)
    (uid : Nat) :
    (∀ cu, cache.lookup ("user:" ++ toString uid) = some cu →
      UserRepository.getByID st cache uid
        = Except.ok
            ({ scalar := cu.scalar, roles := UserRepository.getUserRoles st uid },
             cache) ∧
      MongoUserRepository.getByID st cache uid
        = Except.ok
            ({ scalar := cu.scalar,
               roles := MongoUserRepository.getUserRoles st uid },
             cache)) ∧
    (∀ u, cache.lookup ("user:" ++ toString uid) = none →
      st.users.find? (fun v => v.id == uid) = some u →
      UserRepository.getByID st cache uid
        = Except.ok
            ({ scalar := u, roles := UserRepository.getUserRoles st uid },
             ("user:" ++ toString uid,
              { scalar := u, roles := UserRepository.getUserRoles st uid })
               :: cache) ∧
      MongoUserRepository.getByID st cache uid
        = Except.ok
            ({ scalar := u, roles := MongoUserRepository.getUserRoles st uid },
             ("user:" ++ toString uid,
              { scalar := u, roles := MongoUserRepository.getUserRoles st uid })
               :: cache)) := by
  constructor
  · intro cu hcu
    constructor
    · rw [UserRepository.getByID, hcu]
    · rw [MongoUserRepository.getByID, hcu]
  · intro u hmiss hfind
    constructor
    · rw [UserRepository.getByID, hmiss, hfind]
    · rw [MongoUserRepository.getByID, hmiss, hfind]

/-- Witness for C7 (amended): a cache hit whose stored roles are stale (the
entry holds no roles) still returns the live role 2. -/
theorem getByID_roles_fetched_live_witness :
    UserRepository.getByID cexStoreC7 [("user:1", ⟨cexUser, []⟩)] 1
      = Except.ok (⟨cexUser, [cexRole]⟩, [("user:1", ⟨cexUser, []⟩)]) := by
  have h := (getByID_roles_fetched_live cexStoreC7
    [("user:1", ⟨cexUser, []⟩)] 1).1 ⟨cexUser, []⟩ (by rfl)
  exact h.1

/-!
## Permission checks

`UserRepository.HasPermission` runs a single EXISTS over the
permissions × role_permissions × user_roles join;
`MongoUserRepository.HasPermission` collects the user's role ids, looks up
one permission document by (resource, action) with `FindOne`, and checks the
role_permissions collection for it. -/

namespace UserRepository

/-- `UserRepository.HasPermission` (postgres_user_repo.go lines 384-402):
`SELECT EXISTS (... JOIN ... WHERE ur.user_id = $1 AND p.resource = $2 AND
p.action = $3)`. -/
def hasPermission (st : Store) (uid : Nat) (res act : String) : Bool :=
  st.permissions.any fun p =>
    (st.rolePermissions.any fun rp =>
      rp.2 == p.id && st.userRoles.any fun ur =>
        ur.1 == uid && ur.2 == rp.1)
    && p.resource == res && p.action == act

end UserRepository

namespace MongoUserRepository

/-- `MongoUserRepository.HasPermission` (mongo_user_repo.go lines 484-534):
collect the user's role ids (none → false); `FindOne` the permission with the
given resource and action (ErrNoDocuments → false); then check whether any of
the user's roles has that permission's id in role_permissions. -/
def hasPermission (st : Store) (uid : Nat) (res act : String) : Bool :=
  let roleIDs := (st.userRoles.filter fun ur => ur.1 == uid).map Prod.snd
  if roleIDs.isEmpty then false
  else
    match st.permissions.find?
        (fun p => p.resource == res && p.action == act) with
    | none => false
    | some p =>
        roleIDs.any fun rid =>
          st.rolePermissions.any fun rp => rp.1 == rid && rp.2 == p.id

end MongoUserRepository

/-- The claim's permission predicate, spelled from its words: there exists a
role assigned to the user and a permission with the given resource and action
assigned to that role. -/
def specHasPermission (st : Store) (uid : Nat) (res act : String) : Prop :=
  ∃ rid : Nat, (uid, rid) ∈ st.userRoles ∧
    ∃ p ∈ st.permissions, p.resource = res ∧ p.action = act ∧
      (rid, p.id) ∈ st.rolePermissions

namespace PermissionRepository

/-- `PermissionRepository.Delete` (relational): `DELETE FROM permissions
WHERE id = $1` with rows-affected check; the schema's
`role_permissions.permission_id ... ON DELETE CASCADE` removes the
referencing association rows. -/
def deletePermission (st : Store) (pid : Nat) : Except String Store :=
  if st.permissions.any (fun p => p.id == pid) then
    Except.ok { st with
      permissions := st.permissions.filter (fun p => !(p.id == pid)),
      rolePermissions := st.rolePermissions.filter (fun rp => !(rp.2 == pid)) }
  else Except.error "permission not found"

end PermissionRepository

namespace MongoPermissionRepository

/-- `MongoPermissionRepository.Delete`: `DeleteOne` on the permission
document (`DeletedCount == 0` becomes not-found); the role_permissions
collection is not touched by this method. -/
def deletePermission (st : Store) (pid : Nat) : Except String Store :=
  if st.permissions.any (fun p => p.id == pid) then
    Except.ok { st with
      permissions := st.permissions.eraseP (fun p => p.id == pid) }
  else Except.error "permission not found"

end MongoPermissionRepository

/-- Under a predicate that picks out a single element `x` of a duplicate-free
list, `x` is no longer a member after `eraseP`. -/
theorem not_mem_eraseP_of_unique {α : Type} (l : List α) (hnd : l.Nodup)
    (x : α) (pred : α → Bool) (hx : pred x = true)
    (honly : ∀ y ∈ l, pred y = true → y = x) : x ∉ l.eraseP pred := by
  induction l with
  | nil => simp
  | cons a as ih =>
    rw [List.eraseP_cons]
    by_cases ha : pred a = true
    · simp only [ha, cond_true]
      have hax : a = x := honly a (List.mem_cons_self a as) ha
      subst hax
      exact (List.nodup_cons.mp hnd).1
    · simp only [Bool.not_eq_true] at ha
      simp only [ha, cond_false, List.mem_cons, not_or]
      refine ⟨?_, ?_⟩
      · intro hxa
        rw [hxa] at hx
        rw [hx] at ha
        cases ha
      · exact ih (List.nodup_cons.mp hnd).2
          (fun y hy => honly y (List.mem_cons_of_mem a hy))

/-- C8: with the data-model invariants on the store — (resource, action)
identifies at most one permission, permission ids are unique, and the
permission collection holds no duplicate documents — `HasPermission` on both
backends is true exactly when some role assigned to the user carries a
permission with the given resource and action; and after that permission is
deleted (by either backend's Delete), `HasPermission` is false on both
backends. -/
theorem hasPermission_iff (st : Store) (uid : Nat) (res act : String)
    (hpair : ∀ p ∈ st.permissions, ∀ q ∈ st.permissions,
      p.resource = q.resource → p.action = q.action → p = q)
    (hid : ∀ p ∈ st.permissions, ∀ q ∈ st.permissions, p.id = q.id → p = q)
    (hnd : st.permissions.Nodup) :
    (UserRepository.hasPermission st uid res act = true
      ↔ specHasPermission st uid res act) ∧
    (MongoUserRepository.hasPermission st uid res act = true
      ↔ specHasPermission st uid res act) ∧
    (∀ p ∈ st.permissions, p.resource = res → p.action = act →
      ∀ st', PermissionRepository.deletePermission st p.id = Except.ok st' →
        UserRepository.hasPermission st' uid res act = false) ∧
    (∀ p ∈ st.permissions, p.resource = res → p.action = act →
      ∀ st',
        MongoPermissionRepository.deletePermission st p.id = Except.ok st' →
        MongoUserRepository.hasPermission st' uid res act = false) := by
  refine ⟨?_, ?_, ?_, ?_⟩
  · -- relational EXISTS join ↔ the spec predicate
    rw [UserRepository.hasPermission]
    simp only [List.any_eq_true, Bool.and_eq_true, beq_iff_eq]
    constructor
    · rintro ⟨p, hp, ⟨⟨rp, hrp, hrpid, ur, hur, hur1, hur2⟩, hres⟩, hact⟩
      refine ⟨rp.1, ?_, p, hp, hres, hact, ?_⟩
      · have : ur = (uid, rp.1) := Prod.ext hur1 hur2
        rw [← this]; exact hur
      · have : rp = (rp.1, p.id) := Prod.ext rfl hrpid
        rw [← this]; exact hrp
    · rintro ⟨rid, hur, p, hp, hres, hact, hrp⟩
      exact ⟨p, hp, ⟨⟨(rid, p.id), hrp, rfl, (uid, rid), hur, rfl, rfl⟩,
        hres⟩, hact⟩
  · -- document-store lookup ↔ the spec predicate
    rw [MongoUserRepository.hasPermission]
    constructor
    · intro h
      by_cases hE :
          ((st.userRoles.filter fun ur => ur.1 == uid).map
            Prod.snd).isEmpty = true
      · rw [if_pos hE] at h; cases h
      · rw [if_neg hE] at h
        cases hfind : st.permissions.find?
            (fun p => p.resource == res && p.action == act) with
        | none => rw [hfind] at h; cases h
        | some p =>
          rw [hfind] at h
          have hpmem := List.mem_of_find?_eq_some hfind
          have hppred := List.find?_some hfind
          simp only [Bool.and_eq_true, beq_iff_eq] at hppred
          simp only [List.any_eq_true, List.mem_map, List.mem_filter,
            Bool.and_eq_true, beq_iff_eq] at h
          obtain ⟨rid, ⟨ur, ⟨hur, hur1⟩, hur2⟩, rp, hrp, hrp1, hrp2⟩ := h
          refine ⟨rid, ?_, p, hpmem, hppred.1, hppred.2, ?_⟩
          · have : ur = (uid, rid) := Prod.ext hur1 hur2
            rw [← this]; exact hur
          · have : rp = (rid, p.id) := Prod.ext hrp1 hrp2
            rw [← this]; exact hrp
    · rintro ⟨rid, hur, p, hp, hres, hact, hrp⟩
      have hridmem : rid ∈
          (st.userRoles.filter fun ur => ur.1 == uid).map Prod.snd := by
        refine List.mem_map.mpr ⟨(uid, rid), ?_, rfl⟩
        exact List.mem_filter.mpr ⟨hur, by simp⟩
      have hE : ((st.userRoles.filter fun ur => ur.1 == uid).map
          Prod.snd).isEmpty = false := by
        have := List.ne_nil_of_mem hridmem
        simp [List.isEmpty_iff, this]
      rw [if_neg (by rw [hE]; exact Bool.false_ne_true)]
      cases hfind : st.permissions.find?
          (fun q => q.resource == res && q.action == act) with
      | none =>
        exfalso
        have := List.find?_eq_none.mp hfind p hp
        simp [hres, hact] at this
      | some q =>
        have hqmem := List.mem_of_find?_eq_some hfind
        have hqpred := List.find?_some hfind
        simp only [Bool.and_eq_true, beq_iff_eq] at hqpred
        have hqp : q = p :=
          hpair q hqmem p hp (hqpred.1.trans hres.symm)
            (hqpred.2.trans hact.symm)
        subst hqp
        simp only [List.any_eq_true, Bool.and_eq_true, beq_iff_eq]
        exact ⟨rid, hridmem, (rid, q.id), hrp, rfl, rfl⟩
  · -- relational delete: the cascade removes the permission and its rows
    intro p hp hres hact st' hdel
    rw [PermissionRepository.deletePermission] at hdel
    rw [if_pos (List.any_eq_true.mpr ⟨p, hp, by simp⟩)] at hdel
    cases hdel
    rw [UserRepository.hasPermission]
    refine any_eq_false_of_pred_false _ _ ?_
    intro q hq
    have hqmem := (List.mem_filter.mp hq).1
    have hqid := (List.mem_filter.mp hq).2
    simp only [Bool.not_eq_eq_eq_not, Bool.not_true, beq_eq_false_iff_ne,
      ne_eq] at hqid
    by_cases h1 : q.resource = res
    · by_cases h2 : q.action = act
      · exfalso
        exact hqid (congrArg PermDoc.id
          (hpair q hqmem p hp (h1.trans hres.symm) (h2.trans hact.symm)))
      · simp [beq_iff_eq, h2]
    · simp [beq_iff_eq, h1]
  · -- document-store delete: the permission document itself is gone
    intro p hp hres hact st' hdel
    rw [MongoPermissionRepository.deletePermission] at hdel
    rw [if_pos (List.any_eq_true.mpr ⟨p, hp, by simp⟩)] at hdel
    cases hdel
    have hgone : p ∉ st.permissions.eraseP (fun q => q.id == p.id) :=
      not_mem_eraseP_of_unique st.permissions hnd p _ (by simp)
        (fun y hy hyp => hid y hy p hp (by simpa using hyp))
    have hfind : (st.permissions.eraseP (fun q => q.id == p.id)).find?
        (fun q => q.resource == res && q.action == act) = none := by
      rw [List.find?_eq_none]
      intro q hq hqpred
      have hqmem := List.mem_of_mem_eraseP hq
      simp only [Bool.and_eq_true, beq_iff_eq] at hqpred
      have hqp : q = p :=
        hpair q hqmem p hp (hqpred.1.trans hres.symm)
          (hqpred.2.trans hact.symm)
      rw [hqp] at hq
      exact hgone hq
    rw [MongoUserRepository.hasPermission]
    by_cases hE : ((st.userRoles.filter fun ur => ur.1 == uid).map
        Prod.snd).isEmpty = true
    · rw [if_pos hE]
    · rw [if_neg hE]
      simp only [hfind]

/-- Store for the C8 witness: user 1 has role 2, which carries permission 3
on ("doc", "read"). -/
def cexStoreC8 : Store :=
  { emptyStore with
    users := [cexUser],
    roles := [cexRole],
    permissions := [{ id := 3, name := "doc-read", resource := "doc",
                      action := "read", description := "" }],
    userRoles := [(1, 2)],
    rolePermissions := [(2, 3)] }

/-- Witness for C8: at the concrete store, the relational `HasPermission`
agrees with the spec predicate and is true. -/
theorem hasPermission_iff_witness :
    UserRepository.hasPermission cexStoreC8 1 "doc" "read" = true := by
  refine ((hasPermission_iff cexStoreC8 1 "doc" "read"
    (by decide) (by decide) (by decide)).1).mpr ?_
  refine ⟨2, by decide,
    { id := 3, name := "doc-read", resource := "doc", action := "read",
      description := "" }, by decide, rfl, rfl, by decide⟩

end GoUserApi
